import Mathlib

/-!
# Undo-log address codec (`src/include/access/undolog.h`)

A shallow embedding of the macros of `undolog.h` that pack and unpack an
`UndoRecPtr` and convert between physical offsets and usable-byte numbers,
of the comparison of checkpoint file names, and of the inline function
`UndoRecPtrGetTablespace` with the per-backend tablespace cache.

`UndoRecPtr` and `UndoLogOffset` are `uint64`; they are embedded as `Nat`
with every operation that can leave the 64-bit range reduced modulo `2^64`.
-/

namespace UndoLog

/-! ## 64-bit unsigned arithmetic -/

/-- Number of values of a `uint64`. -/
def UINT64_SIZE : Nat := 2 ^ 64

/-- Wrapping `uint64` addition. -/
def add64 (a b : Nat) : Nat := (a + b) % UINT64_SIZE

/-- Wrapping `uint64` subtraction. -/
def sub64 (a b : Nat) : Nat := (a % UINT64_SIZE + UINT64_SIZE - b % UINT64_SIZE) % UINT64_SIZE

/-- Wrapping `uint64` multiplication. -/
def mul64 (a b : Nat) : Nat := (a * b) % UINT64_SIZE

/-- Left shift of a `uint64`: bits shifted past bit 63 are lost. -/
def shl64 (a s : Nat) : Nat := (a <<< s) % UINT64_SIZE

/-! ## Constants -/

/-- Modelled from the spec: the block size `BLCKSZ`, declared outside the two
source files; the spec fixes it at 8192. -/
def BLCKSZ : Nat := 8192

/-- Modelled from the spec: `SizeOfPageHeaderData` (from `storage/bufpage.h`,
not among the source files); the spec fixes the header size at 24. -/
def SizeOfPageHeaderData : Nat := 24

/-- The width of an undo log number in bits. -/
def UndoLogNumberBits : Nat := 24

/-- The maximum valid undo log number, `(1 << UndoLogNumberBits) - 1`. -/
def MaxUndoLogNumber : Nat := (1 <<< UndoLogNumberBits) - 1

/-- The width of an undo log offset in bits, `64 - UndoLogNumberBits`. -/
def UndoLogOffsetBits : Nat := 64 - UndoLogNumberBits

/-- The invalid undo record pointer, `(UndoRecPtr) 0`. -/
def InvalidUndoRecPtr : Nat := 0

/-- The "not yet known" undo record pointer, `0xFFFFFFFFFFFFFFFF`. -/
def SpecialUndoRecPtr : Nat := 0xFFFFFFFFFFFFFFFF

/-- The maximum amount of data in an undo log,
`(UndoLogOffset) 1 << UndoLogOffsetBits`. -/
def UndoLogMaxSize : Nat := shl64 1 UndoLogOffsetBits

/-- The number of unusable bytes in the header of each block. -/
def UndoLogBlockHeaderSize : Nat := SizeOfPageHeaderData

/-- The number of usable bytes per block, `BLCKSZ - UndoLogBlockHeaderSize`. -/
def UndoLogUsableBytesPerPage : Nat := sub64 BLCKSZ UndoLogBlockHeaderSize

/-! ## Pointer codec -/

/-- The macro `UndoRecPtrGetLogNo(urp)`: `urp >> UndoLogOffsetBits`. -/
def UndoRecPtrGetLogNo (urp : Nat) : Nat := urp >>> UndoLogOffsetBits

/-- The macro `UndoRecPtrGetOffset(urp)`:
`urp & ((UINT64CONST(1) << UndoLogOffsetBits) - 1)`. -/
def UndoRecPtrGetOffset (urp : Nat) : Nat :=
  urp &&& sub64 (shl64 1 UndoLogOffsetBits) 1

/-- The macro `MakeUndoRecPtr(logno, offset)`:
`((uint64) logno << UndoLogOffsetBits) | offset`. -/
def MakeUndoRecPtr (logno offset : Nat) : Nat :=
  shl64 logno UndoLogOffsetBits ||| offset

/-- The macro `UndoRecPtrIsValid(undoRecPtr)`: `undoRecPtr != InvalidUndoRecPtr`. -/
def UndoRecPtrIsValid (undoRecPtr : Nat) : Bool := undoRecPtr != InvalidUndoRecPtr

/-- The macro `UndoRecPtrGetBlockNum(urp)`: `UndoRecPtrGetOffset(urp) / BLCKSZ`. -/
def UndoRecPtrGetBlockNum (urp : Nat) : Nat := UndoRecPtrGetOffset urp / BLCKSZ

/-- The macro `UndoRecPtrGetPageOffset(urp)`: `UndoRecPtrGetOffset(urp) % BLCKSZ`. -/
def UndoRecPtrGetPageOffset (urp : Nat) : Nat := UndoRecPtrGetOffset urp % BLCKSZ

/-! ## Usable-byte arithmetic -/

/-- The macro `UndoLogOffsetFromUsableByteNo(i)`:
`(i / UndoLogUsableBytesPerPage) * BLCKSZ + UndoLogBlockHeaderSize
 + (i % UndoLogUsableBytesPerPage)`, in `uint64`. -/
def UndoLogOffsetFromUsableByteNo (i : Nat) : Nat :=
  add64 (add64 (mul64 (i / UndoLogUsableBytesPerPage) BLCKSZ) UndoLogBlockHeaderSize)
    (i % UndoLogUsableBytesPerPage)

/-- The macro `UndoLogOffsetToUsableByteNo(offset)`:
`(offset % BLCKSZ - UndoLogBlockHeaderSize)
 + (offset / BLCKSZ) * UndoLogUsableBytesPerPage`, in `uint64`. -/
def UndoLogOffsetToUsableByteNo (offset : Nat) : Nat :=
  add64 (sub64 (offset % BLCKSZ) UndoLogBlockHeaderSize)
    (mul64 (offset / BLCKSZ) UndoLogUsableBytesPerPage)

/-- The macro `UndoLogOffsetPlusUsableBytes(offset, n)`:
`UndoLogOffsetFromUsableByteNo(UndoLogOffsetToUsableByteNo(offset) + n)`. -/
def UndoLogOffsetPlusUsableBytes (offset n : Nat) : Nat :=
  UndoLogOffsetFromUsableByteNo (add64 (UndoLogOffsetToUsableByteNo offset) n)

/-! ## Checkpoint file names -/

/-- Length of an undo checkpoint file name. -/
def UNDO_CHECKPOINT_FILENAME_LENGTH : Nat := 16

/-- The character code that the conversion `X` of `printf` writes for one
hexadecimal digit: `'0'`..`'9'` for 0..9 and `'A'`..`'F'` for 10..15. -/
def hexDigitUpper (d : Nat) : Nat :=
  if d < 10 then '0'.toNat + d else 'A'.toNat + (d - 10)

/-- The `width` least significant hexadecimal digits of `v`, most significant
first, as upper-case character codes. -/
def hexField : Nat → Nat → List Nat
  | 0, _ => []
  | width + 1, v => hexDigitUpper (v / 16 ^ width % 16) :: hexField width v

/-- The text `printf` produces for a `uint64` under the format string
`UndoRecPtrFormat`, `"%016" INT64_MODIFIER "X"`: a `uint64` has at most 16
hexadecimal digits, so the zero-padded field holds exactly 16 of them. The
text is a C string, given by its character codes without the final NUL. -/
def UndoRecPtrFormat (v : Nat) : List Nat :=
  hexField 16 (v % UINT64_SIZE)

/-- The C library function `strcmp` on NUL-terminated strings given by their
character codes: the difference of the first pair of bytes that differ, the
end of a string counting as the byte 0. -/
def strcmp : List Nat → List Nat → Int
  | [], [] => 0
  | [], b :: _ => 0 - (b : Int)
  | a :: _, [] => (a : Int) - 0
  | a :: s1, b :: s2 => if a = b then strcmp s1 s2 else (a : Int) - (b : Int)

/-- The macro `UndoCheckPointFilenamePrecedes(file1, file2)`:
`strcmp(file1, file2) < 0`. -/
def UndoCheckPointFilenamePrecedes (file1 file2 : List Nat) : Bool :=
  decide (strcmp file1 file2 < 0)

/-! ## Per-backend tablespace cache -/

/-- The conversion of an unsigned value to `int` (32 bits, two's complement),
as in the initialisation `UndoLogNumber logno = UndoRecPtrGetLogNo(urp)`. -/
def toInt32 (x : Nat) : Int :=
  if x % 2 ^ 32 < 2 ^ 31 then ((x % 2 ^ 32 : Nat) : Int) else ((x % 2 ^ 32 : Nat) : Int) - 2 ^ 32

/-- The struct `UndoLogTableEntry`; `control` is the address of the control
object in shared memory. -/
structure UndoLogTableEntry where
  number : Int
  control : Nat
  tablespace : Nat
  status : Nat
  deriving DecidableEq, Repr

/-- The state a backend works on: its private hash table `undologtable_cache`
(the entries it holds) and the shared memory `shared` that `UndoLogGet` reads. -/
structure Backend (σ : Type) where
  undologtable_cache : List UndoLogTableEntry
  shared : σ

/-- Modelled from the spec: `undologtable_lookup`, instantiated from
`lib/simplehash.h` (not among the source files) with key `number` and equality
`a == b`; the spec describes it as a hash-table lookup by log number. It
returns the entry stored under the key, if there is one. -/
def undologtable_lookup (tb : List UndoLogTableEntry) (key : Int) : Option UndoLogTableEntry :=
  tb.find? (fun entry => entry.number == key)

/-- How a call of `UndoRecPtrGetTablespace` can fail: `UndoLogGet` raised an
error, or the entry read after the slow path is a null pointer. -/
inductive TablespaceFailure where
  | raised (msg : String)
  | nullEntry
  deriving DecidableEq, Repr

/-- The inline function `UndoRecPtrGetTablespace(urp)`. The extern function
`UndoLogGet(logno, missing_ok)` is a parameter: it either raises an error or
returns the backend state it leaves behind (its result pointer is not used
here). -/
def UndoRecPtrGetTablespace {σ : Type}
    (UndoLogGet : Int → Bool → Backend σ → Except String (Backend σ))
    (urp : Nat) (st : Backend σ) : Except TablespaceFailure (Nat × Backend σ) :=
  let logno : Int := toInt32 (UndoRecPtrGetLogNo urp)
  match undologtable_lookup st.undologtable_cache logno with
  | some entry => .ok (entry.tablespace, st)
  | none =>
    match UndoLogGet logno false st with
    | .error msg => .error (.raised msg)
    | .ok st1 =>
      match undologtable_lookup st1.undologtable_cache logno with
      | some entry => .ok (entry.tablespace, st1)
      | none => .error .nullEntry

end UndoLog

/-!
# File access: path validation (`src/backend/utils/adt/genfile.c`)

C strings are given by their character codes without the final NUL.
-/

namespace GenFile

/-- The error codes that `genfile.c` passes to `errcode` by name. -/
inductive SqlErrorCode where
  | ERRCODE_INSUFFICIENT_PRIVILEGE
  | ERRCODE_INVALID_PARAMETER_VALUE
  deriving DecidableEq, Repr

/-- An error raised by `ereport(ERROR, (errcode(...), errmsg(...)))`. -/
structure ErrorData where
  sqlerrcode : SqlErrorCode
  message : String
  deriving DecidableEq, Repr

/-- The C library function `strlen`. -/
def strlen (s : List Nat) : Nat := s.length

/-- The C library function `strncmp`: like `strcmp`, on at most `n` bytes. -/
def strncmp : List Nat → List Nat → Nat → Int
  | _, _, 0 => 0
  | [], [], _ + 1 => 0
  | [], b :: _, _ + 1 => 0 - (b : Int)
  | a :: _, [], _ + 1 => (a : Int) - 0
  | a :: s1, b :: s2, n + 1 => if a = b then strncmp s1 s2 n else (a : Int) - (b : Int)

/-- The byte `s[i]` of a C string for `i <= strlen(s)`: the terminating NUL
is the byte at index `strlen(s)`. -/
def charAt (s : List Nat) (i : Nat) : Nat := s.getD i 0

/-- The C string that `check_and_make_absolute` builds from its `text`
argument: the bytes of the argument are copied and a NUL is appended, so the
string ends at the first NUL byte, if the argument holds one. -/
def textToFilename (arg : List Nat) : List Nat := arg.takeWhile (fun c => c != 0)

/-- The function `check_and_make_absolute(arg)`. The functions
`canonicalize_path`, `path_contains_parent_reference` and `is_absolute_path`
(declared outside the source files) are parameters, and so are the globals
`Log_directory` and `DataDir`. -/
def check_and_make_absolute
    (canonicalize_path : List Nat → List Nat)
    (path_contains_parent_reference : List Nat → Bool)
    (is_absolute_path : List Nat → Bool)
    (Log_directory DataDir : List Nat) (arg : List Nat) : Except ErrorData (List Nat) :=
  let filename := canonicalize_path (textToFilename arg)
  if path_contains_parent_reference filename then
    .error ⟨.ERRCODE_INSUFFICIENT_PRIVILEGE,
      "reference to parent directory (\x22..\x22) not allowed"⟩
  else if is_absolute_path filename then
    if is_absolute_path Log_directory &&
        strncmp filename Log_directory (strlen Log_directory) == 0 &&
        (charAt filename (strlen Log_directory) == '/'.toNat ||
         charAt filename (strlen Log_directory) == 0) then
      .ok filename
    else
      .error ⟨.ERRCODE_INSUFFICIENT_PRIVILEGE, "absolute path not allowed"⟩
  else
    .ok (DataDir ++ '/'.toNat :: filename)

end GenFile

namespace UndoLog

/-! ## Basic facts about the constants -/

theorem UINT64_SIZE_eq : UINT64_SIZE = 18446744073709551616 := by
  norm_num [UINT64_SIZE]

theorem UndoLogOffsetBits_eq : UndoLogOffsetBits = 40 := by
  norm_num [UndoLogOffsetBits, UndoLogNumberBits]

theorem MaxUndoLogNumber_eq : MaxUndoLogNumber = 16777215 := by
  norm_num [MaxUndoLogNumber, UndoLogNumberBits, Nat.shiftLeft_eq]

theorem UndoLogMaxSize_eq : UndoLogMaxSize = 1099511627776 := by
  norm_num [UndoLogMaxSize, shl64, UndoLogOffsetBits_eq, Nat.shiftLeft_eq, UINT64_SIZE]

theorem UndoLogUsableBytesPerPage_eq : UndoLogUsableBytesPerPage = 8168 := by
  norm_num [UndoLogUsableBytesPerPage, sub64, BLCKSZ, UndoLogBlockHeaderSize,
    SizeOfPageHeaderData, UINT64_SIZE]

theorem offsetMask_eq : sub64 (shl64 1 UndoLogOffsetBits) 1 = 2 ^ 40 - 1 := by
  norm_num [sub64, shl64, UndoLogOffsetBits_eq, Nat.shiftLeft_eq, UINT64_SIZE]

theorem UndoRecPtrGetLogNo_eq (urp : Nat) : UndoRecPtrGetLogNo urp = urp / 2 ^ 40 := by
  simp [UndoRecPtrGetLogNo, UndoLogOffsetBits_eq, Nat.shiftRight_eq_div_pow]

theorem UndoRecPtrGetOffset_eq (urp : Nat) : UndoRecPtrGetOffset urp = urp % 2 ^ 40 := by
  rw [UndoRecPtrGetOffset, offsetMask_eq, Nat.and_pow_two_sub_one_eq_mod]

theorem MakeUndoRecPtr_eq (logno offset : Nat) (hl : logno < 2 ^ 24) (ho : offset < 2 ^ 40) :
    MakeUndoRecPtr logno offset = logno * 2 ^ 40 + offset := by
  have hlt : logno <<< 40 < UINT64_SIZE := by
    rw [Nat.shiftLeft_eq, UINT64_SIZE_eq]; omega
  rw [MakeUndoRecPtr, shl64, UndoLogOffsetBits_eq, Nat.mod_eq_of_lt hlt,
    Nat.shiftLeft_eq, Nat.mul_comm logno, ← Nat.mul_add_lt_is_or ho]

/-! ## Unfolded forms of the usable-byte conversions -/

theorem UndoLogOffsetFromUsableByteNo_unfold (i : Nat) :
    UndoLogOffsetFromUsableByteNo i =
      (((i / 8168 * 8192) % 18446744073709551616 + 24) % 18446744073709551616 + i % 8168)
        % 18446744073709551616 := by
  simp only [UndoLogOffsetFromUsableByteNo, add64, mul64, UndoLogUsableBytesPerPage_eq,
    UINT64_SIZE_eq, BLCKSZ, UndoLogBlockHeaderSize, SizeOfPageHeaderData]

theorem UndoLogOffsetToUsableByteNo_unfold (offset : Nat) :
    UndoLogOffsetToUsableByteNo offset =
      ((offset % 8192 % 18446744073709551616 + 18446744073709551616
          - 24 % 18446744073709551616) % 18446744073709551616
        + (offset / 8192 * 8168) % 18446744073709551616) % 18446744073709551616 := by
  simp only [UndoLogOffsetToUsableByteNo, add64, sub64, mul64, UndoLogUsableBytesPerPage_eq,
    UINT64_SIZE_eq, BLCKSZ, UndoLogBlockHeaderSize, SizeOfPageHeaderData]

/-- Without overflow the forward conversion is page start, header, byte in page. -/
theorem UndoLogOffsetFromUsableByteNo_eq (i : Nat) (h : i < 8168 * 2 ^ 51) :
    UndoLogOffsetFromUsableByteNo i = i / 8168 * 8192 + 24 + i % 8168 := by
  rw [UndoLogOffsetFromUsableByteNo_unfold]
  norm_num at h
  omega

/-- The page offset of a converted byte number, overflow or not. -/
theorem UndoLogOffsetFromUsableByteNo_mod (i : Nat) :
    UndoLogOffsetFromUsableByteNo i % 8192 = 24 + i % 8168 := by
  rw [UndoLogOffsetFromUsableByteNo_unfold]
  omega

/-- Outside a page header the inverse conversion counts the bytes of the full
pages before the offset and the bytes before it in its own page. -/
theorem UndoLogOffsetToUsableByteNo_eq (offset : Nat) (h : offset < 2 ^ 64)
    (hh : 24 ≤ offset % 8192) :
    UndoLogOffsetToUsableByteNo offset = offset % 8192 - 24 + offset / 8192 * 8168 := by
  rw [UndoLogOffsetToUsableByteNo_unfold]
  norm_num at h
  omega

/-- Adding usable bytes to an offset outside a page header, without overflow. -/
theorem UndoLogOffsetPlusUsableBytes_eq (o n : Nat) (ho : o < 2 ^ 40) (hh : 24 ≤ o % 8192)
    (hn : n < 2 ^ 40) :
    UndoLogOffsetPlusUsableBytes o n =
      (o % 8192 - 24 + o / 8192 * 8168 + n) / 8168 * 8192 + 24
        + (o % 8192 - 24 + o / 8192 * 8168 + n) % 8168 := by
  have ho64 : o < 2 ^ 64 := lt_of_lt_of_le ho (by norm_num)
  norm_num at ho hn
  have hsum : add64 (o % 8192 - 24 + o / 8192 * 8168) n
      = o % 8192 - 24 + o / 8192 * 8168 + n := by
    rw [add64, UINT64_SIZE_eq]; omega
  rw [UndoLogOffsetPlusUsableBytes, UndoLogOffsetToUsableByteNo_eq o ho64 hh, hsum,
    UndoLogOffsetFromUsableByteNo_eq]
  norm_num
  omega

/-! ## Pointer codec: encode and decode -/

/-- C1: for every log number `l < 2^24` and offset `o < 2^40`, decoding
`MakeUndoRecPtr(l, o)` gives back `l` and `o`; and `MakeUndoRecPtr(5, 1000000)`
is `(5 << 40) | 1000000`, which decodes to `(5, 1000000)`. -/
theorem encode_decode_roundtrip (l o : Nat) (hl : l < 2 ^ 24) (ho : o < 2 ^ 40) :
    UndoRecPtrGetLogNo (MakeUndoRecPtr l o) = l ∧
    UndoRecPtrGetOffset (MakeUndoRecPtr l o) = o ∧
    MakeUndoRecPtr 5 1000000 = (5 <<< 40) ||| 1000000 ∧
    UndoRecPtrGetLogNo (MakeUndoRecPtr 5 1000000) = 5 ∧
    UndoRecPtrGetOffset (MakeUndoRecPtr 5 1000000) = 1000000 := by
  have hgen : ∀ a b : Nat, a < 2 ^ 24 → b < 2 ^ 40 →
      UndoRecPtrGetLogNo (MakeUndoRecPtr a b) = a ∧
      UndoRecPtrGetOffset (MakeUndoRecPtr a b) = b := by
    intro a b ha hb
    rw [UndoRecPtrGetLogNo_eq, UndoRecPtrGetOffset_eq, MakeUndoRecPtr_eq a b ha hb]
    norm_num at ha hb ⊢
    omega
  refine ⟨(hgen l o hl ho).1, (hgen l o hl ho).2, ?_,
    (hgen 5 1000000 (by norm_num) (by norm_num)).1,
    (hgen 5 1000000 (by norm_num) (by norm_num)).2⟩
  rw [MakeUndoRecPtr, shl64, UndoLogOffsetBits_eq, UINT64_SIZE_eq]
  rfl

theorem encode_decode_roundtrip_witness :
    (5 : Nat) < 2 ^ 24 ∧ (1000000 : Nat) < 2 ^ 40 ∧
    UndoRecPtrGetLogNo (MakeUndoRecPtr 5 1000000) = 5 ∧
    UndoRecPtrGetOffset (MakeUndoRecPtr 5 1000000) = 1000000 :=
  ⟨by norm_num, by norm_num,
    (encode_decode_roundtrip 5 1000000 (by norm_num) (by norm_num)).1,
    (encode_decode_roundtrip 5 1000000 (by norm_num) (by norm_num)).2.1⟩

/-! ## Usable-byte conversions: round trips -/

/-- C2: for every usable-byte number `n` in `[0, UndoLogMaxSize)`, converting
to a physical offset and back returns `n`. -/
theorem usable_byte_roundtrip (n : Nat) (hn : n < UndoLogMaxSize) :
    UndoLogOffsetToUsableByteNo (UndoLogOffsetFromUsableByteNo n) = n := by
  rw [UndoLogMaxSize_eq] at hn
  rw [UndoLogOffsetFromUsableByteNo_eq n (by norm_num; omega),
    UndoLogOffsetToUsableByteNo_eq _ (by norm_num; omega) (by omega)]
  omega

theorem usable_byte_roundtrip_witness :
    8168 < UndoLogMaxSize ∧
    UndoLogOffsetToUsableByteNo (UndoLogOffsetFromUsableByteNo 8168) = 8168 :=
  ⟨by decide, usable_byte_roundtrip 8168 (by decide)⟩

/-- C3, as stated, fails: offset 0 is a valid offset inside the header of page
0; the inverse conversion wraps around to `2^64 - 24` and the forward
conversion of that does not return 0. -/
theorem offset_roundtrip_counterexample :
    0 < UndoLogMaxSize ∧ 0 % BLCKSZ < UndoLogBlockHeaderSize ∧
    UndoLogOffsetToUsableByteNo 0 = 18446744073709551592 ∧
    UndoLogOffsetFromUsableByteNo (UndoLogOffsetToUsableByteNo 0) = 54201990422261160 ∧
    UndoLogOffsetFromUsableByteNo (UndoLogOffsetToUsableByteNo 0) ≠ 0 := by
  decide

/-- C3, amended: for every offset `n < UndoLogMaxSize`, the inverse conversion
followed by the forward conversion returns `n` exactly when `n` is not inside
a page header, that is when `n % BLCKSZ` is at least the header size. -/
theorem offset_roundtrip_iff (n : Nat) (hn : n < UndoLogMaxSize) :
    UndoLogOffsetFromUsableByteNo (UndoLogOffsetToUsableByteNo n) = n ↔
      UndoLogBlockHeaderSize ≤ n % BLCKSZ := by
  rw [UndoLogMaxSize_eq] at hn
  simp only [UndoLogBlockHeaderSize, SizeOfPageHeaderData, BLCKSZ]
  constructor
  · intro h
    have hm := UndoLogOffsetFromUsableByteNo_mod (UndoLogOffsetToUsableByteNo n)
    rw [h] at hm
    omega
  · intro hh
    rw [UndoLogOffsetToUsableByteNo_eq n (by norm_num; omega) hh,
      UndoLogOffsetFromUsableByteNo_eq _ (by norm_num; omega)]
    omega

theorem offset_roundtrip_iff_witness :
    8216 < UndoLogMaxSize ∧ UndoLogBlockHeaderSize ≤ 8216 % BLCKSZ ∧
    UndoLogOffsetFromUsableByteNo (UndoLogOffsetToUsableByteNo 8216) = 8216 :=
  ⟨by decide, by decide, (offset_roundtrip_iff 8216 (by decide)).2 (by decide)⟩

/-! ## Placement of usable bytes -/

/-- C4, as stated, fails for a byte number whose page start overflows 64 bits:
at `n = 8168 * 2^51` (a `uint64`) the forward conversion wraps around to 24,
which is below `UndoLogMaxSize`, and the block number of the pointer made
from it is 0, not `n / 8168 = 2^51`. -/
theorem usable_byte_placement_counterexample :
    8168 * 2 ^ 51 < UINT64_SIZE ∧
    UndoLogOffsetFromUsableByteNo (8168 * 2 ^ 51) = 24 ∧
    UndoLogOffsetFromUsableByteNo (8168 * 2 ^ 51) < UndoLogMaxSize ∧
    UndoRecPtrGetBlockNum (MakeUndoRecPtr 0 (UndoLogOffsetFromUsableByteNo (8168 * 2 ^ 51))) = 0 ∧
    UndoRecPtrGetBlockNum (MakeUndoRecPtr 0 (UndoLogOffsetFromUsableByteNo (8168 * 2 ^ 51)))
      ≠ 8168 * 2 ^ 51 / 8168 := by
  decide

/-- C4, amended: for every log number `l < 2^24` and byte number `n` with
`UndoLogOffsetFromUsableByteNo(n) < UndoLogMaxSize`, the pointer
`p = MakeUndoRecPtr(l, UndoLogOffsetFromUsableByteNo(n))` has page offset
`24 + n % 8168`, which lies in `[24, 8192)`, and, when `n < 8168 * 2^51` (the
conversion does not overflow 64 bits), block number `n / 8168`; logical 0,
8167 and 8168 map to physical 24, 8191 and 8216. -/
theorem usable_byte_placement (l n : Nat) (hl : l < 2 ^ 24)
    (hn : UndoLogOffsetFromUsableByteNo n < UndoLogMaxSize) :
    UndoRecPtrGetPageOffset (MakeUndoRecPtr l (UndoLogOffsetFromUsableByteNo n))
      = 24 + n % 8168 ∧
    24 ≤ UndoRecPtrGetPageOffset (MakeUndoRecPtr l (UndoLogOffsetFromUsableByteNo n)) ∧
    UndoRecPtrGetPageOffset (MakeUndoRecPtr l (UndoLogOffsetFromUsableByteNo n)) < 8192 ∧
    (n < 8168 * 2 ^ 51 →
      UndoRecPtrGetBlockNum (MakeUndoRecPtr l (UndoLogOffsetFromUsableByteNo n)) = n / 8168) ∧
    UndoLogOffsetFromUsableByteNo 0 = 24 ∧
    UndoLogOffsetFromUsableByteNo 8167 = 8191 ∧
    UndoLogOffsetFromUsableByteNo 8168 = 8216 := by
  rw [UndoLogMaxSize_eq] at hn
  have hoff : UndoRecPtrGetOffset (MakeUndoRecPtr l (UndoLogOffsetFromUsableByteNo n))
      = UndoLogOffsetFromUsableByteNo n := by
    rw [UndoRecPtrGetOffset_eq, MakeUndoRecPtr_eq l _ hl (by norm_num; omega)]
    norm_num
    omega
  have hmod := UndoLogOffsetFromUsableByteNo_mod n
  simp only [UndoRecPtrGetPageOffset, UndoRecPtrGetBlockNum, hoff, BLCKSZ]
  refine ⟨hmod, by omega, by omega, ?_, by decide, by decide, by decide⟩
  intro hlt
  rw [UndoLogOffsetFromUsableByteNo_eq n hlt]
  omega

theorem usable_byte_placement_witness :
    (5 : Nat) < 2 ^ 24 ∧ UndoLogOffsetFromUsableByteNo 8168 < UndoLogMaxSize ∧
    UndoRecPtrGetPageOffset (MakeUndoRecPtr 5 (UndoLogOffsetFromUsableByteNo 8168))
      = 24 + 8168 % 8168 ∧
    UndoRecPtrGetBlockNum (MakeUndoRecPtr 5 (UndoLogOffsetFromUsableByteNo 8168))
      = 8168 / 8168 :=
  ⟨by norm_num, by decide,
    (usable_byte_placement 5 8168 (by norm_num) (by decide)).1,
    (usable_byte_placement 5 8168 (by norm_num) (by decide)).2.2.2.1 (by norm_num)⟩

/-! ## Advancing an insert position -/

/-- C5: for every physical offset `o < UndoLogMaxSize` outside a page header
(`o % BLCKSZ >= 24`) and every size `n < 2^40`, the usable-byte number of
`UndoLogOffsetPlusUsableBytes(o, n)` is that of `o` plus `n`. -/
theorem advance_counts_usable_bytes (o n : Nat) (ho : o < UndoLogMaxSize)
    (hh : 24 ≤ o % BLCKSZ) (hn : n < 2 ^ 40) :
    UndoLogOffsetToUsableByteNo (UndoLogOffsetPlusUsableBytes o n)
      = UndoLogOffsetToUsableByteNo o + n := by
  rw [UndoLogMaxSize_eq] at ho
  rw [BLCKSZ] at hh
  have ho40 : o < 2 ^ 40 := by norm_num; omega
  rw [UndoLogOffsetPlusUsableBytes_eq o n ho40 hh hn,
    UndoLogOffsetToUsableByteNo_eq o (by norm_num; omega) hh]
  norm_num at hn
  rw [UndoLogOffsetToUsableByteNo_eq _ (by norm_num; omega) (by omega)]
  omega

theorem advance_counts_usable_bytes_witness :
    8190 < UndoLogMaxSize ∧ 24 ≤ 8190 % BLCKSZ ∧ (100 : Nat) < 2 ^ 40 ∧
    UndoLogOffsetToUsableByteNo (UndoLogOffsetPlusUsableBytes 8190 100)
      = UndoLogOffsetToUsableByteNo 8190 + 100 :=
  ⟨by decide, by decide, by norm_num,
    advance_counts_usable_bytes 8190 100 (by decide) (by decide) (by norm_num)⟩

/-- C10: for every physical offset `o < UndoLogMaxSize` outside a page header
and all sizes `m <= n < 2^40`,
`o <= UndoLogOffsetPlusUsableBytes(o, m) <= UndoLogOffsetPlusUsableBytes(o, n)`,
`UndoLogOffsetPlusUsableBytes(o, 0) == o` and
`UndoLogOffsetPlusUsableBytes(o, n) >= o + n`. -/
theorem advance_monotone (o m n : Nat) (ho : o < UndoLogMaxSize) (hh : 24 ≤ o % BLCKSZ)
    (hmn : m ≤ n) (hn : n < 2 ^ 40) :
    o ≤ UndoLogOffsetPlusUsableBytes o m ∧
    UndoLogOffsetPlusUsableBytes o m ≤ UndoLogOffsetPlusUsableBytes o n ∧
    UndoLogOffsetPlusUsableBytes o 0 = o ∧
    o + n ≤ UndoLogOffsetPlusUsableBytes o n := by
  rw [UndoLogMaxSize_eq] at ho
  rw [BLCKSZ] at hh
  have ho40 : o < 2 ^ 40 := by norm_num; omega
  have hm : m < 2 ^ 40 := lt_of_le_of_lt hmn hn
  rw [UndoLogOffsetPlusUsableBytes_eq o n ho40 hh hn,
    UndoLogOffsetPlusUsableBytes_eq o m ho40 hh hm,
    UndoLogOffsetPlusUsableBytes_eq o 0 ho40 hh (by norm_num)]
  norm_num at hn hm
  omega

theorem advance_monotone_witness :
    8190 < UndoLogMaxSize ∧ 24 ≤ 8190 % BLCKSZ ∧ (10 : Nat) ≤ 100 ∧ (100 : Nat) < 2 ^ 40 ∧
    8190 ≤ UndoLogOffsetPlusUsableBytes 8190 10 ∧
    UndoLogOffsetPlusUsableBytes 8190 10 ≤ UndoLogOffsetPlusUsableBytes 8190 100 :=
  ⟨by decide, by decide, by norm_num, by norm_num,
    (advance_monotone 8190 10 100 (by decide) (by decide) (by norm_num) (by norm_num)).1,
    (advance_monotone 8190 10 100 (by decide) (by decide) (by norm_num) (by norm_num)).2.1⟩

/-! ## Reserved pointer values -/

/-- C6: `UndoRecPtrIsValid(p)` is true exactly when `p != 0`, and for every log
number `l <= MaxUndoLogNumber` (log 0 included) and byte number `n` with
`UndoLogOffsetFromUsableByteNo(n) < UndoLogMaxSize`, the pointer
`MakeUndoRecPtr(l, UndoLogOffsetFromUsableByteNo(n))` is valid. -/
theorem invalid_pointer_reserved :
    (∀ p : Nat, UndoRecPtrIsValid p = true ↔ p ≠ 0) ∧
    (∀ l n : Nat, l ≤ MaxUndoLogNumber → UndoLogOffsetFromUsableByteNo n < UndoLogMaxSize →
      UndoRecPtrIsValid (MakeUndoRecPtr l (UndoLogOffsetFromUsableByteNo n)) = true) := by
  have hvalid : ∀ p : Nat, UndoRecPtrIsValid p = true ↔ p ≠ 0 := by
    intro p
    simp [UndoRecPtrIsValid, InvalidUndoRecPtr]
  refine ⟨hvalid, ?_⟩
  intro l n hl hn
  rw [MaxUndoLogNumber_eq] at hl
  rw [UndoLogMaxSize_eq] at hn
  rw [hvalid, MakeUndoRecPtr_eq l _ (by norm_num; omega) (by norm_num; omega)]
  have hmod := UndoLogOffsetFromUsableByteNo_mod n
  omega

/-- C7, as stated, fails: the last usable byte of the last page of the log
numbered `MaxUndoLogNumber`, byte number `2^27 * 8168 - 1`, lies at offset
`UndoLogMaxSize - 1`, and the pointer made for it is `SpecialUndoRecPtr`. -/
theorem special_pointer_counterexample :
    MaxUndoLogNumber ≤ MaxUndoLogNumber ∧
    UndoLogOffsetFromUsableByteNo (2 ^ 27 * 8168 - 1) = UndoLogMaxSize - 1 ∧
    UndoLogOffsetFromUsableByteNo (2 ^ 27 * 8168 - 1) < UndoLogMaxSize ∧
    MakeUndoRecPtr MaxUndoLogNumber (UndoLogOffsetFromUsableByteNo (2 ^ 27 * 8168 - 1))
      = SpecialUndoRecPtr := by
  decide

/-- C7, amended: for every log number `l <= MaxUndoLogNumber` and byte number
`n` with `UndoLogOffsetFromUsableByteNo(n) < UndoLogMaxSize`, the pointer
`MakeUndoRecPtr(l, UndoLogOffsetFromUsableByteNo(n))` equals
`SpecialUndoRecPtr` only when `l = MaxUndoLogNumber` and the offset is
`UndoLogMaxSize - 1`, the last byte of that log; for every other usable byte
the pointer differs from the sentinel. -/
theorem special_pointer_only_last_byte (l n : Nat) (hl : l ≤ MaxUndoLogNumber)
    (hn : UndoLogOffsetFromUsableByteNo n < UndoLogMaxSize) :
    MakeUndoRecPtr l (UndoLogOffsetFromUsableByteNo n) = SpecialUndoRecPtr ↔
      l = MaxUndoLogNumber ∧ UndoLogOffsetFromUsableByteNo n = UndoLogMaxSize - 1 := by
  rw [MaxUndoLogNumber_eq] at hl ⊢
  rw [UndoLogMaxSize_eq] at hn ⊢
  rw [MakeUndoRecPtr_eq l _ (by norm_num; omega) (by norm_num; omega), SpecialUndoRecPtr]
  norm_num
  omega

theorem special_pointer_only_last_byte_witness :
    5 ≤ MaxUndoLogNumber ∧ UndoLogOffsetFromUsableByteNo 8168 < UndoLogMaxSize ∧
    MakeUndoRecPtr 5 (UndoLogOffsetFromUsableByteNo 8168) ≠ SpecialUndoRecPtr :=
  ⟨by decide, by decide, fun h =>
    absurd ((special_pointer_only_last_byte 5 8168 (by decide) (by decide)).1 h).1 (by decide)⟩

/-! ## Checkpoint file names -/

theorem hexDigitUpper_eq (d : Nat) :
    hexDigitUpper d = if d < 10 then 48 + d else 65 + (d - 10) := rfl

theorem hexDigitUpper_lt_iff (c d : Nat) (hc : c < 16) (hd : d < 16) :
    hexDigitUpper c < hexDigitUpper d ↔ c < d := by
  rw [hexDigitUpper_eq, hexDigitUpper_eq]
  split <;> split <;> omega

theorem hexDigitUpper_eq_iff (c d : Nat) (hc : c < 16) (hd : d < 16) :
    hexDigitUpper c = hexDigitUpper d ↔ c = d := by
  rw [hexDigitUpper_eq, hexDigitUpper_eq]
  split <;> split <;> omega

theorem hexField_length (width v : Nat) : (hexField width v).length = width := by
  induction width with
  | zero => rfl
  | succ k ih => simp [hexField, ih]

/-- Comparing two fields of the same width with `strcmp` compares the
numbers their digits denote. -/
theorem strcmp_hexField_neg_iff (width a b : Nat) :
    strcmp (hexField width a) (hexField width b) < 0 ↔ a % 16 ^ width < b % 16 ^ width := by
  induction width with
  | zero => simp [hexField, strcmp, Nat.mod_one]
  | succ k ih =>
    have hA : a / 16 ^ k % 16 < 16 := Nat.mod_lt _ (by norm_num)
    have hB : b / 16 ^ k % 16 < 16 := Nat.mod_lt _ (by norm_num)
    have hP : 0 < 16 ^ k := by positivity
    have hr : a % 16 ^ k < 16 ^ k := Nat.mod_lt _ hP
    have hs : b % 16 ^ k < 16 ^ k := Nat.mod_lt _ hP
    rw [Nat.mod_pow_succ, Nat.mod_pow_succ]
    simp only [hexField, strcmp]
    by_cases hdig : a / 16 ^ k % 16 = b / 16 ^ k % 16
    · rw [if_pos (by rw [hdig]), ih, hdig]
      omega
    · rw [if_neg (fun h => hdig ((hexDigitUpper_eq_iff _ _ hA hB).1 h))]
      have hlt := hexDigitUpper_lt_iff _ _ hA hB
      constructor
      · intro h
        have h1 : a / 16 ^ k % 16 < b / 16 ^ k % 16 := hlt.1 (by omega)
        have h2 : 16 ^ k * (a / 16 ^ k % 16 + 1) ≤ 16 ^ k * (b / 16 ^ k % 16) :=
          Nat.mul_le_mul_left _ h1
        rw [Nat.mul_add, Nat.mul_one] at h2
        omega
      · intro h
        have h1 : a / 16 ^ k % 16 < b / 16 ^ k % 16 := by
          by_contra hge
          have h3 : b / 16 ^ k % 16 + 1 ≤ a / 16 ^ k % 16 := by omega
          have h2 : 16 ^ k * (b / 16 ^ k % 16 + 1) ≤ 16 ^ k * (a / 16 ^ k % 16) :=
            Nat.mul_le_mul_left _ h3
          rw [Nat.mul_add, Nat.mul_one] at h2
          omega
        have h4 := hlt.2 h1
        omega

/-- C8: for any two 64-bit redo positions `a` and `b`, their checkpoint file
names have `UNDO_CHECKPOINT_FILENAME_LENGTH` = 16 characters each, and
`UndoCheckPointFilenamePrecedes(name(a), name(b))` holds if and only if
`a < b`. -/
theorem checkpoint_filename_order (a b : Nat) (ha : a < 2 ^ 64) (hb : b < 2 ^ 64) :
    (UndoRecPtrFormat a).length = UNDO_CHECKPOINT_FILENAME_LENGTH ∧
    (UndoRecPtrFormat b).length = UNDO_CHECKPOINT_FILENAME_LENGTH ∧
    (UndoCheckPointFilenamePrecedes (UndoRecPtrFormat a) (UndoRecPtrFormat b) = true
      ↔ a < b) := by
  refine ⟨hexField_length _ _, hexField_length _ _, ?_⟩
  have h16 : (16 : Nat) ^ 16 = 2 ^ 64 := by norm_num
  rw [UndoCheckPointFilenamePrecedes, decide_eq_true_iff, UndoRecPtrFormat, UndoRecPtrFormat,
    strcmp_hexField_neg_iff, h16, UINT64_SIZE, Nat.mod_mod, Nat.mod_mod,
    Nat.mod_eq_of_lt ha, Nat.mod_eq_of_lt hb]

theorem checkpoint_filename_order_witness :
    (159 : Nat) < 2 ^ 64 ∧ (160 : Nat) < 2 ^ 64 ∧
    UndoCheckPointFilenamePrecedes (UndoRecPtrFormat 159) (UndoRecPtrFormat 160) = true :=
  ⟨by norm_num, by norm_num,
    (checkpoint_filename_order 159 160 (by norm_num) (by norm_num)).2.2.2 (by norm_num)⟩

/-! ## Tablespace cache: fast path -/

theorem undologtable_lookup_number (tb : List UndoLogTableEntry) (key : Int)
    (entry : UndoLogTableEntry) (h : undologtable_lookup tb key = some entry) :
    entry.number = key := by
  have hfound := List.find?_some h
  simpa using hfound

/-- C9: when the log number of `p` already has an entry in the backend's
cache, `UndoRecPtrGetTablespace(p)` returns that entry's tablespace and leaves
the backend state, cache included, as it was, whatever `UndoLogGet` would do
(it is not called, so the call succeeds even if `UndoLogGet` would raise an
error); every pointer with the same log number resolves to the same
tablespace. -/
theorem tablespace_cache_fast_path {σ : Type} (p : Nat) (st : Backend σ)
    (entry : UndoLogTableEntry)
    (h : undologtable_lookup st.undologtable_cache (toInt32 (UndoRecPtrGetLogNo p))
      = some entry) :
    entry.number = toInt32 (UndoRecPtrGetLogNo p) ∧
    (∀ UndoLogGet : Int → Bool → Backend σ → Except String (Backend σ),
      UndoRecPtrGetTablespace UndoLogGet p st = .ok (entry.tablespace, st)) ∧
    (∀ (UndoLogGet : Int → Bool → Backend σ → Except String (Backend σ)) (q : Nat),
      UndoRecPtrGetLogNo q = UndoRecPtrGetLogNo p →
      UndoRecPtrGetTablespace UndoLogGet q st = .ok (entry.tablespace, st)) := by
  have hsame : ∀ (UndoLogGet : Int → Bool → Backend σ → Except String (Backend σ)) (q : Nat),
      UndoRecPtrGetLogNo q = UndoRecPtrGetLogNo p →
      UndoRecPtrGetTablespace UndoLogGet q st = .ok (entry.tablespace, st) := by
    intro UndoLogGet q hq
    simp only [UndoRecPtrGetTablespace, hq, h]
  exact ⟨undologtable_lookup_number _ _ _ h, fun g => hsame g p rfl, hsame⟩

theorem tablespace_cache_fast_path_witness :
    undologtable_lookup [⟨7, 0, 1700, 1⟩, ⟨5, 64, 1663, 1⟩]
      (toInt32 (UndoRecPtrGetLogNo (MakeUndoRecPtr 5 1000000))) = some ⟨5, 64, 1663, 1⟩ ∧
    UndoRecPtrGetTablespace (fun _ _ _ => Except.error "undo log 5 has been discarded")
      (MakeUndoRecPtr 5 1000000)
      (Backend.mk [⟨7, 0, 1700, 1⟩, ⟨5, 64, 1663, 1⟩] ())
      = .ok (1663, Backend.mk [⟨7, 0, 1700, 1⟩, ⟨5, 64, 1663, 1⟩] ()) ∧
    UndoRecPtrGetTablespace (fun _ _ _ => Except.error "undo log 5 has been discarded")
      (MakeUndoRecPtr 5 24)
      (Backend.mk [⟨7, 0, 1700, 1⟩, ⟨5, 64, 1663, 1⟩] ())
      = .ok (1663, Backend.mk [⟨7, 0, 1700, 1⟩, ⟨5, 64, 1663, 1⟩] ()) :=
  ⟨by decide,
    (tablespace_cache_fast_path (MakeUndoRecPtr 5 1000000)
      (Backend.mk [⟨7, 0, 1700, 1⟩, ⟨5, 64, 1663, 1⟩] ()) ⟨5, 64, 1663, 1⟩ (by decide)).2.1 _,
    (tablespace_cache_fast_path (MakeUndoRecPtr 5 1000000)
      (Backend.mk [⟨7, 0, 1700, 1⟩, ⟨5, 64, 1663, 1⟩] ()) ⟨5, 64, 1663, 1⟩ (by decide)).2.2 _
      (MakeUndoRecPtr 5 24) (by decide)⟩

end UndoLog

namespace GenFile

/-! ## Path validation -/

/-- Comparing the first `strlen(t)` bytes of `s` with the C string `t` gives 0
exactly when `s` starts with `t`. -/
theorem strncmp_eq_zero_iff (t : List Nat) (ht : ∀ c ∈ t, c ≠ 0) (s : List Nat) :
    strncmp s t (strlen t) = 0 ↔ t <+: s := by
  induction t generalizing s with
  | nil => cases s <;> simp [strncmp, strlen]
  | cons b t ih =>
    have hb : b ≠ 0 := ht b (List.mem_cons_self b t)
    have ht2 : ∀ c ∈ t, c ≠ 0 := fun c hc => ht c (List.mem_cons_of_mem b hc)
    cases s with
    | nil =>
      simp only [strncmp, strlen, List.length_cons]
      constructor
      · intro h
        omega
      · intro h
        simp at h
    | cons a s =>
      simp only [strncmp, strlen, List.length_cons, List.cons_prefix_cons]
      by_cases hab : a = b
      · rw [if_pos hab]
        have := ih ht2 s
        rw [strlen] at this
        rw [this]
        simp [hab]
      · rw [if_neg hab]
        constructor
        · intro h
          omega
        · intro h
          exact absurd h.1.symm hab

/-- Reading the byte after `n` bytes of a C string: it is the NUL exactly at
the end of the string. -/
theorem charAt_eq_zero_iff (s : List Nat) (hs : ∀ c ∈ s, c ≠ 0) (n : Nat) :
    charAt s n = 0 ↔ s.length ≤ n := by
  rw [charAt, List.getD_eq_getElem?_getD]
  by_cases hn : n < s.length
  · have hmem : s[n] ∈ s := List.getElem_mem hn
    have hne := hs _ hmem
    simp [List.getElem?_eq_getElem hn, hne]
    omega
  · simp [List.getElem?_eq_none (Nat.le_of_not_lt hn)]
    omega

theorem charAt_eq_iff (s : List Nat) (n c : Nat) (hc : c ≠ 0) :
    charAt s n = c ↔ s[n]? = some c := by
  rw [charAt, List.getD_eq_getElem?_getD]
  by_cases hn : n < s.length
  · simp [List.getElem?_eq_getElem hn]
  · simp [List.getElem?_eq_none (Nat.le_of_not_lt hn)]
    exact fun h => hc h.symm

/-- C11: let `f` be the canonicalized form of the argument. If `f` contains a
parent-directory reference, `check_and_make_absolute` raises an
insufficient-privilege error. Otherwise, if `f` is absolute, the function
returns `f` when `Log_directory` is absolute, `f` starts with `Log_directory`
and the character of `f` right after that prefix is `'/'` or the end of the
string, and raises an insufficient-privilege error when that condition fails
(so `Log_directory` followed by an other character is rejected); if `f` is
relative, it returns `DataDir`, `"/"` and `f` joined. -/
theorem check_and_make_absolute_validates
    (canonicalize_path : List Nat → List Nat)
    (path_contains_parent_reference is_absolute_path : List Nat → Bool)
    (Log_directory DataDir arg f : List Nat)
    (hcanon : canonicalize_path (textToFilename arg) = f)
    (hf : ∀ c ∈ f, c ≠ 0) (hL : ∀ c ∈ Log_directory, c ≠ 0) :
    (path_contains_parent_reference f = true →
      check_and_make_absolute canonicalize_path path_contains_parent_reference
          is_absolute_path Log_directory DataDir arg
        = .error ⟨.ERRCODE_INSUFFICIENT_PRIVILEGE,
            "reference to parent directory (\x22..\x22) not allowed"⟩) ∧
    (path_contains_parent_reference f = false → is_absolute_path f = true →
      ((is_absolute_path Log_directory = true ∧ Log_directory <+: f ∧
          (f.length = Log_directory.length ∨ f[Log_directory.length]? = some '/'.toNat)) →
        check_and_make_absolute canonicalize_path path_contains_parent_reference
            is_absolute_path Log_directory DataDir arg = .ok f) ∧
      (¬ (is_absolute_path Log_directory = true ∧ Log_directory <+: f ∧
          (f.length = Log_directory.length ∨ f[Log_directory.length]? = some '/'.toNat)) →
        check_and_make_absolute canonicalize_path path_contains_parent_reference
            is_absolute_path Log_directory DataDir arg
          = .error ⟨.ERRCODE_INSUFFICIENT_PRIVILEGE, "absolute path not allowed"⟩)) ∧
    (path_contains_parent_reference f = false → is_absolute_path f = false →
      check_and_make_absolute canonicalize_path path_contains_parent_reference
          is_absolute_path Log_directory DataDir arg
        = .ok (DataDir ++ '/'.toNat :: f)) ∧
    (∀ (c : Nat) (rest : List Nat), f = Log_directory ++ c :: rest → c ≠ '/'.toNat →
      path_contains_parent_reference f = false → is_absolute_path f = true →
      check_and_make_absolute canonicalize_path path_contains_parent_reference
          is_absolute_path Log_directory DataDir arg
        = .error ⟨.ERRCODE_INSUFFICIENT_PRIVILEGE, "absolute path not allowed"⟩) := by
  have hslash : '/'.toNat ≠ 0 := by decide
  have hcond : (is_absolute_path Log_directory &&
        strncmp f Log_directory (strlen Log_directory) == 0 &&
        (charAt f (strlen Log_directory) == '/'.toNat ||
         charAt f (strlen Log_directory) == 0)) = true ↔
      (is_absolute_path Log_directory = true ∧ Log_directory <+: f ∧
          (f.length = Log_directory.length ∨
            f[Log_directory.length]? = some '/'.toNat)) := by
    rw [Bool.and_eq_true, Bool.and_eq_true, Bool.or_eq_true, beq_iff_eq, beq_iff_eq,
      beq_iff_eq, strncmp_eq_zero_iff Log_directory hL f, charAt_eq_iff f _ _ hslash,
      charAt_eq_zero_iff f hf, strlen, and_assoc]
    constructor
    · rintro ⟨h1, h2, h3⟩
      have hlen := h2.length_le
      refine ⟨h1, h2, ?_⟩
      rcases h3 with h3 | h3
      · exact Or.inr h3
      · exact Or.inl (by omega)
    · rintro ⟨h1, h2, h3⟩
      refine ⟨h1, h2, ?_⟩
      rcases h3 with h3 | h3
      · exact Or.inr (by omega)
      · exact Or.inl h3
  have habs : path_contains_parent_reference f = false → is_absolute_path f = true →
      ((is_absolute_path Log_directory = true ∧ Log_directory <+: f ∧
          (f.length = Log_directory.length ∨ f[Log_directory.length]? = some '/'.toNat)) →
        check_and_make_absolute canonicalize_path path_contains_parent_reference
            is_absolute_path Log_directory DataDir arg = .ok f) ∧
      (¬ (is_absolute_path Log_directory = true ∧ Log_directory <+: f ∧
          (f.length = Log_directory.length ∨ f[Log_directory.length]? = some '/'.toNat)) →
        check_and_make_absolute canonicalize_path path_contains_parent_reference
            is_absolute_path Log_directory DataDir arg
          = .error ⟨.ERRCODE_INSUFFICIENT_PRIVILEGE, "absolute path not allowed"⟩) := by
    intro hp ha
    constructor
    · intro h
      simp only [check_and_make_absolute, hcanon, hp, ha, if_true, hcond.2 h]
      rfl
    · intro h
      have hfalse : ¬ ((is_absolute_path Log_directory &&
          strncmp f Log_directory (strlen Log_directory) == 0 &&
          (charAt f (strlen Log_directory) == '/'.toNat ||
           charAt f (strlen Log_directory) == 0)) = true) := fun hc => h (hcond.1 hc)
      simp only [check_and_make_absolute, hcanon, hp, ha, if_true, if_neg hfalse]
      rfl
  refine ⟨?_, habs, ?_, ?_⟩
  · intro hp
    simp only [check_and_make_absolute, hcanon, hp, if_true]
  · intro hp ha
    simp only [check_and_make_absolute, hcanon, hp, ha]
    rfl
  · intro c rest hfeq hc hp ha
    apply (habs hp ha).2
    rintro ⟨_, _, h3⟩
    rw [hfeq] at h3
    rcases h3 with h3 | h3
    · simp at h3
    · rw [List.getElem?_append_right (le_refl _), Nat.sub_self] at h3
      simp only [List.getElem?_cons_zero, Option.some.injEq] at h3
      exact hc h3

/-- With `Log_directory` = `/log` and `DataDir` = `/d`, the argument `/log/a`
is returned and the sibling `/logx` is rejected. -/
theorem check_and_make_absolute_validates_witness :
    (∀ c ∈ [47, 108, 111, 103, 47, 97], c ≠ 0) ∧ (∀ c ∈ [47, 108, 111, 103], c ≠ 0) ∧
    check_and_make_absolute id (fun _ => false) (fun s => s.head? == some 47)
        [47, 108, 111, 103] [47, 100] [47, 108, 111, 103, 47, 97]
      = .ok [47, 108, 111, 103, 47, 97] ∧
    check_and_make_absolute id (fun _ => false) (fun s => s.head? == some 47)
        [47, 108, 111, 103] [47, 100] [47, 108, 111, 103, 120]
      = .error ⟨.ERRCODE_INSUFFICIENT_PRIVILEGE, "absolute path not allowed"⟩ :=
  ⟨by decide, by decide,
    ((check_and_make_absolute_validates id (fun _ => false) (fun s => s.head? == some 47)
      [47, 108, 111, 103] [47, 100] [47, 108, 111, 103, 47, 97] [47, 108, 111, 103, 47, 97]
      rfl (by decide) (by decide)).2.1 rfl rfl).1 ⟨rfl, ⟨[47, 97], rfl⟩, Or.inr rfl⟩,
    (check_and_make_absolute_validates id (fun _ => false) (fun s => s.head? == some 47)
      [47, 108, 111, 103] [47, 100] [47, 108, 111, 103, 120] [47, 108, 111, 103, 120]
      rfl (by decide) (by decide)).2.2.2 120 [] rfl (by decide) rfl rfl⟩

end GenFile

namespace UndoLog

/-! ## Pointer codec: decode and encode -/

/-- C12: for every 64-bit value `p`, encoding the decoded fields gives back
`p`, the decoded log number is at most `MaxUndoLogNumber` and the decoded
offset is below `UndoLogMaxSize`; every pair in range encodes to a 64-bit
value, and the only pair in range that encodes to `p` is the decoded one, so
the codec is a bijection between pairs in range and 64-bit pointers. -/
theorem decode_encode_identity (p : Nat) (hp : p < UINT64_SIZE) :
    MakeUndoRecPtr (UndoRecPtrGetLogNo p) (UndoRecPtrGetOffset p) = p ∧
    UndoRecPtrGetLogNo p ≤ MaxUndoLogNumber ∧
    UndoRecPtrGetOffset p < UndoLogMaxSize ∧
    (∀ l o : Nat, l ≤ MaxUndoLogNumber → o < UndoLogMaxSize →
      MakeUndoRecPtr l o < UINT64_SIZE) ∧
    (∀ l o : Nat, l ≤ MaxUndoLogNumber → o < UndoLogMaxSize →
      (MakeUndoRecPtr l o = p ↔ l = UndoRecPtrGetLogNo p ∧ o = UndoRecPtrGetOffset p)) := by
  rw [UINT64_SIZE_eq] at hp
  rw [UndoRecPtrGetLogNo_eq, UndoRecPtrGetOffset_eq, MaxUndoLogNumber_eq, UndoLogMaxSize_eq,
    UINT64_SIZE_eq]
  have hl : p / 2 ^ 40 < 2 ^ 24 := by norm_num; omega
  have ho : p % 2 ^ 40 < 2 ^ 40 := Nat.mod_lt _ (by norm_num)
  rw [MakeUndoRecPtr_eq _ _ hl ho]
  norm_num at hl ho
  refine ⟨?_, ?_, ?_, ?_, ?_⟩
  · norm_num
    omega
  · omega
  · norm_num
    omega
  · intro l o hl2 ho2
    rw [MakeUndoRecPtr_eq l o (by norm_num; omega) (by norm_num; omega)]
    norm_num
    omega
  · intro l o hl2 ho2
    rw [MakeUndoRecPtr_eq l o (by norm_num; omega) (by norm_num; omega)]
    norm_num
    omega

theorem decode_encode_identity_witness :
    SpecialUndoRecPtr < UINT64_SIZE ∧
    MakeUndoRecPtr (UndoRecPtrGetLogNo SpecialUndoRecPtr) (UndoRecPtrGetOffset SpecialUndoRecPtr)
      = SpecialUndoRecPtr ∧
    UndoRecPtrGetLogNo SpecialUndoRecPtr ≤ MaxUndoLogNumber ∧
    UndoRecPtrGetOffset SpecialUndoRecPtr < UndoLogMaxSize :=
  ⟨by decide, (decode_encode_identity SpecialUndoRecPtr (by decide)).1,
    (decode_encode_identity SpecialUndoRecPtr (by decide)).2.1,
    (decode_encode_identity SpecialUndoRecPtr (by decide)).2.2.1⟩

end UndoLog
